import Mathlib

/-!
Shallow embedding of the Bifrost Trader control-center subsystem
(`src/services/control-center/src`): the health monitor
(`services/health_monitor.py`), the service manager
(`services/service_manager.py`), the service registry
(`utils/service_registry.py`) and the alert derivation
(`api/health.py`), together with the data model (`models/service.py`).

Modelling conventions:
* Python `datetime` timestamps are integers (seconds); `timedelta(hours=h)`
  is `h * 3600` seconds.
* Python floats (latencies, uptime, cpu/memory figures) are rationals `ℚ`.
* A Python `dict` is an association list with unique keys; `dictInsert`
  replaces the value of an existing key in place (as Python assignment
  does), `dictErase` models `del`, `dictLookup` models `get`.
* Fallible calls (`response.json()`, `subprocess.Popen`, `terminate`)
  are `Except`-valued or carry their possible failure in the input data.
* Wall-clock-only fields that no claim inspects (the `timestamp` of
  `ServiceActionResponse` and `ServiceLog`) are omitted; `asyncio.sleep`
  is a pure no-op.
-/

namespace Bifrost

/-- Enumeration `ServiceStatus` from `models/service.py`. -/
inductive ServiceStatus where
  | running
  | stopped
  | error
  | starting
  | stopping
  | unknown
deriving DecidableEq, Repr

/-- Enumeration `ServiceCategory` from `models/service.py`. -/
inductive ServiceCategory where
  | core
  | trading
  | analytics
  | supporting
  | ui
  | management
deriving DecidableEq, Repr

/-- Model `ServiceHealth` from `models/service.py` (the current health
record of one service); `lastCheck` is an integer timestamp. -/
structure ServiceHealth where
  status : ServiceStatus
  responseTime : Option ℚ
  lastCheck : ℤ
  errorMessage : Option String
  uptime : Option ℚ
  memoryUsage : Option ℚ
  cpuUsage : Option ℚ
deriving DecidableEq, Repr

/-- Model `HealthHistory` from `models/service.py`. -/
structure HealthHistory where
  serviceName : String
  timestamp : ℤ
  status : ServiceStatus
  responseTime : Option ℚ
  errorMessage : Option String
deriving DecidableEq, Repr

/-- Model `ServiceMetrics` from `models/service.py`. -/
structure ServiceMetrics where
  serviceName : String
  timestamp : ℤ
  responseTime : ℚ
  memoryUsage : ℚ
  cpuUsage : ℚ
  requestCount : ℕ
  errorCount : ℕ
deriving DecidableEq, Repr

/-- Model `ServiceLog` from `models/service.py` (wall-clock `timestamp`
field omitted: no claim inspects it). -/
structure ServiceLog where
  serviceName : String
  level : String
  message : String
  source : String
deriving DecidableEq, Repr

/-- Model `ServiceActionResponse` from `models/service.py` (wall-clock
`timestamp` field omitted). -/
structure ServiceActionResponse where
  success : Bool
  message : String
  serviceName : String
deriving DecidableEq, Repr

/-- Model `ServiceInfo` from `models/service.py` (the static descriptor;
the optional embedded `health` field is never populated by the code
under study and is omitted). -/
structure ServiceInfo where
  name : String
  port : ℕ
  category : ServiceCategory
  description : String
  hasUi : Bool
  management : String
  healthEndpoint : String
  docsEndpoint : String
  url : String
deriving DecidableEq, Repr

/-- Lookup in an association-list model of a Python `dict`
(`d.get(k)` / `d[k]`). -/
def dictLookup {α : Type} : List (String × α) → String → Option α
  | [], _ => none
  | (k, v) :: t, k' => if k = k' then some v else dictLookup t k'

/-- Insertion into an association-list model of a Python `dict`
(`d[k] = v`): replaces the value of an existing key in place,
otherwise appends. -/
def dictInsert {α : Type} : List (String × α) → String → α → List (String × α)
  | [], k, v => [(k, v)]
  | (k', v') :: t, k, v =>
      if k' = k then (k, v) :: t else (k', v') :: dictInsert t k v

/-- Deletion from an association-list model of a Python `dict`
(`del d[k]`). -/
def dictErase {α : Type} : List (String × α) → String → List (String × α)
  | [], _ => []
  | (k', v') :: t, k => if k' = k then t else (k', v') :: dictErase t k

/-- Membership test `k in d` on a Python `dict`. -/
def dictContains {α : Type} (l : List (String × α)) (k : String) : Bool :=
  (dictLookup l k).isSome

/-- Outcome of the guarded region of `HealthMonitor._check_service_health`
(`health_monitor.py`, lines 81-107): either the HTTP GET returned a
response with a status code (whose body, read by `response.json()` only
in the 200 branch, may parse to a JSON object with an optional `uptime`
field or may fail to parse and raise), or `httpx.TimeoutException` was
raised, or some other exception with a message was raised. `elapsed` is
the measured round-trip time in seconds. -/
inductive CheckOutcome where
  | ok (code : ℕ) (body : Except String (Option ℚ)) (elapsed : ℚ)
  | timeout
  | exc (msg : String)
deriving Repr

/-- Classification step of `HealthMonitor._check_service_health`
(`health_monitor.py`, lines 81-126): builds the `ServiceHealth` record
stored for the service. HTTP 200 with a parsed body keeps the measured
latency and the body's `uptime` field; any other status code stores
`"HTTP {code}"` (and nulls latency/uptime); a timeout stores
`"Request timeout"`; any other exception — including `response.json()`
raising on a 200 response — stores the exception's message. `mem`/`cpu`
are the psutil figures gathered separately (lines 109-115). -/
def classifyHealth (now : ℤ) (mem cpu : Option ℚ) : CheckOutcome → ServiceHealth
  | .ok code body elapsed =>
      if code = 200 then
        match body with
        | .ok uptimeField =>
            ⟨.running, some elapsed, now, none, uptimeField, mem, cpu⟩
        | .error e => ⟨.error, none, now, some e, none, mem, cpu⟩
      else
        ⟨.error, none, now, some ("HTTP " ++ toString code), none, mem, cpu⟩
  | .timeout => ⟨.error, none, now, some "Request timeout", none, mem, cpu⟩
  | .exc msg => ⟨.error, none, now, some msg, none, mem, cpu⟩

/-- Alert object built by `get_health_alerts` (`api/health.py`,
lines 199-221); `timestamp` carries the record's `last_check`. -/
structure HealthAlert where
  serviceName : String
  severity : String
  message : String
  timestamp : ℤ
  responseTime : Option ℚ
deriving DecidableEq, Repr

/-- Model of the Python f-string `f"{t:.2f}"` applied to a nonnegative
latency in `get_health_alerts`: the value rounded to hundredths,
rendered with exactly two digits after the decimal point. -/
def formatTime2 (q : ℚ) : String :=
  let cents : ℤ := round (q * 100)
  let frac : ℕ := (cents % 100).toNat
  toString (cents / 100) ++ "." ++
    (if frac < 10 then "0" ++ toString frac else toString frac)

/-- Python `x or default` on an optional string: `None` and the empty
string are falsy and select the default. -/
def pyOrStr (x : Option String) (default : String) : String :=
  match x with
  | none => default
  | some s => if s = "" then default else s

/-- Python condition `health.response_time and health.response_time > 5.0`
from `get_health_alerts`: `None` and `0.0` are falsy. -/
def highLatency : Option ℚ → Bool
  | none => false
  | some t => if t = 0 then false else decide (t > 5)

/-- Per-record body of the loop in `get_health_alerts` (`api/health.py`,
lines 198-221): the `if` / `elif` / `elif` chain appends at most one
alert for the record. -/
def alertFor (serviceName : String) (health : ServiceHealth) : Option HealthAlert :=
  if health.status = ServiceStatus.error then
    some ⟨serviceName, "error",
      pyOrStr health.errorMessage "Service is in error state",
      health.lastCheck, health.responseTime⟩
  else if health.status = ServiceStatus.stopped then
    some ⟨serviceName, "warning", "Service is stopped",
      health.lastCheck, health.responseTime⟩
  else if highLatency health.responseTime then
    some ⟨serviceName, "warning",
      "High response time: " ++ formatTime2 (health.responseTime.getD 0) ++ "s",
      health.lastCheck, health.responseTime⟩
  else
    none

/-- Loop of `get_health_alerts` (`api/health.py`, lines 195-221) over the
snapshot returned by `get_all_health()`: accumulates the alerts in
iteration order. -/
def getHealthAlerts (allHealth : List (String × ServiceHealth)) : List HealthAlert :=
  allHealth.foldl
    (fun alerts p =>
      match alertFor p.1 p.2 with
      | some a => alerts ++ [a]
      | none => alerts)
    []

/-- In-memory collections owned by `HealthMonitor` (`health_monitor.py`,
lines 23-26): the current health map, the global metrics list and the
health history list. -/
structure MonitorData where
  healthData : List (String × ServiceHealth)
  metricsHistory : List ServiceMetrics
  healthHistory : List HealthHistory
deriving Repr

/-- Metrics append-and-trim step of `_check_service_health`
(`health_monitor.py`, lines 131-145): append the sample, then keep only
the last 1000 (`self.metrics_history[-1000:]`) when the cap is
exceeded. -/
def appendTrimMetrics (history : List ServiceMetrics) (m : ServiceMetrics) :
    List ServiceMetrics :=
  let h := history ++ [m]
  if h.length > 1000 then h.drop (h.length - 1000) else h

/-- History-pruning step of `_check_service_health` (`health_monitor.py`,
lines 157-162): keep entries strictly newer than `now` minus 24 hours. -/
def pruneHistory (now : ℤ) (history : List HealthHistory) : List HealthHistory :=
  history.filter (fun h => decide (h.timestamp > now - 24 * 3600))

/-- State-update tail of `HealthMonitor._check_service_health`
(`health_monitor.py`, lines 117-162), run after the classification for a
service that exists in the registry and has a health endpoint: overwrite
the service's current record, append a metrics sample when a latency was
captured (trimming to the global 1000 cap), and append one history entry
followed by the 24-hour prune. -/
def checkServiceStep (now : ℤ) (serviceName : String) (outcome : CheckOutcome)
    (mem cpu : Option ℚ) (st : MonitorData) : MonitorData :=
  let health := classifyHealth now mem cpu outcome
  let healthData := dictInsert st.healthData serviceName health
  let metricsHistory :=
    match health.responseTime with
    | some t =>
        appendTrimMetrics st.metricsHistory
          ⟨serviceName, now, t, health.memoryUsage.getD 0,
            health.cpuUsage.getD 0, 0, 0⟩
    | none => st.metricsHistory
  let healthHistory :=
    pruneHistory now
      (st.healthHistory ++
        [⟨serviceName, now, health.status, health.responseTime,
          health.errorMessage⟩])
  ⟨healthData, metricsHistory, healthHistory⟩

/-- Ordering used by `get_health_history` / `get_metrics_history`
(`sorted(..., key=lambda x: x.timestamp)`). -/
def hhLe (a b : HealthHistory) : Prop := a.timestamp ≤ b.timestamp

instance : DecidableRel hhLe := fun a b =>
  inferInstanceAs (Decidable (a.timestamp ≤ b.timestamp))

instance : IsTotal HealthHistory hhLe := ⟨fun a b => le_total a.timestamp b.timestamp⟩

instance : IsTrans HealthHistory hhLe := ⟨fun _ _ _ hab hbc => le_trans hab hbc⟩

/-- Model of `HealthMonitor.get_health_history` (`health_monitor.py`,
lines 215-226): keep entries strictly inside the trailing `hours`
window, filter by service name when the argument is truthy (Python
`if service_name:` — `None` and the empty string disable the filter),
and sort ascending by timestamp (Python `sorted` is modelled by a
stable sort). -/
def getHealthHistory (now : ℤ) (history : List HealthHistory)
    (serviceName : Option String) (hours : ℤ) : List HealthHistory :=
  let cutoff := now - hours * 3600
  let inWindow := history.filter (fun h => decide (h.timestamp > cutoff))
  let filtered :=
    match serviceName with
    | none => inWindow
    | some n =>
        if n = "" then inWindow
        else inWindow.filter (fun h => h.serviceName = n)
  filtered.insertionSort hhLe

/-- Helper for Python's substring operator `needle in hay` on the
underlying character lists. -/
def listContainsSub (needle : List Char) : List Char → Bool
  | [] => needle.isEmpty
  | c :: t => List.isPrefixOf needle (c :: t) || listContainsSub needle t

/-- Python's substring operator `needle in hay`. -/
def containsStr (hay needle : String) : Bool :=
  listContainsSub needle.data hay.data

/-- Model of a `subprocess.Popen` handle as `ServiceManager` sees it:
`alive` is whether `poll()` returns `None` (still running);
`terminateRaises` is the message of an OS exception raised by the
`terminate()`/`wait()` sequence, if any (caught by the `except` branch
of `stop_service`). On an already-exited process `Popen.terminate` is a
no-op, so a dead handle with `terminateRaises = none` stops cleanly. -/
structure Proc where
  pid : ℕ
  alive : Bool
  terminateRaises : Option String
deriving DecidableEq, Repr

/-- Mutable state of `ServiceManager` (`service_manager.py`, lines
24-25): the tracked-process map and the per-service log lists. -/
structure SMState where
  runningProcesses : List (String × Proc)
  serviceLogs : List (String × List ServiceLog)
deriving Repr

/-- Model of `ServiceManager._log_service_action` (`service_manager.py`,
lines 245-262): append one entry to the service's log list, then trim
to the most recent 1000 entries. -/
def logServiceAction (s : SMState) (serviceName level message : String) : SMState :=
  let logs := (dictLookup s.serviceLogs serviceName).getD []
  let logs := logs ++ [⟨serviceName, level, message, "service_manager"⟩]
  let logs := if logs.length > 1000 then logs.drop (logs.length - 1000) else logs
  { s with serviceLogs := dictInsert s.serviceLogs serviceName logs }

/-- Model of `ServiceManager.stop_service` (`service_manager.py`, lines
84-117): a name with no tracked handle yields the structured
"is not running" failure; otherwise terminate/wait runs (succeeding
even when the process already exited on its own), the handle is
removed, an INFO entry is logged and success is returned; an OS
exception during terminate/wait is caught, logged as ERROR and returned
as a failure, leaving the handle tracked. -/
def stopService (s : SMState) (serviceName : String) :
    ServiceActionResponse × SMState :=
  match dictLookup s.runningProcesses serviceName with
  | none =>
      (⟨false, "Service " ++ serviceName ++ " is not running", serviceName⟩, s)
  | some proc =>
      match proc.terminateRaises with
      | some e =>
          (⟨false, "Failed to stop service: " ++ e, serviceName⟩,
            logServiceAction s serviceName "ERROR" ("Failed to stop service: " ++ e))
      | none =>
          let s1 : SMState :=
            { s with runningProcesses := dictErase s.runningProcesses serviceName }
          (⟨true, "Service " ++ serviceName ++ " stopped successfully", serviceName⟩,
            logServiceAction s1 serviceName "INFO"
              ("Service " ++ serviceName ++ " stopped"))

/-- Model of `ServiceManager.start_service` (`service_manager.py`, lines
27-81). The command construction (`_get_uvicorn_command` etc.) and the
`subprocess.Popen` call are summarised by the `spawn` argument: the
handle the spawn produced, or the message of the exception it raised
(caught and logged by the `except` branch). A tracked handle whose
process still reports alive yields the "already running" failure; a
tracked but dead handle falls through and is overwritten. -/
def startService (reg : List (String × ServiceInfo)) (spawn : Except String Proc)
    (s : SMState) (serviceName : String) : ServiceActionResponse × SMState :=
  match dictLookup reg serviceName with
  | none => (⟨false, "Service " ++ serviceName ++ " not found", serviceName⟩, s)
  | some _ =>
      let alreadyRunning :=
        match dictLookup s.runningProcesses serviceName with
        | some p => p.alive
        | none => false
      if alreadyRunning then
        (⟨false, "Service " ++ serviceName ++ " is already running", serviceName⟩, s)
      else
        match spawn with
        | .ok proc =>
            let s1 : SMState :=
              { s with runningProcesses :=
                  dictInsert s.runningProcesses serviceName proc }
            (⟨true, "Service " ++ serviceName ++ " started successfully", serviceName⟩,
              logServiceAction s1 serviceName "INFO"
                ("Service " ++ serviceName ++ " started"))
        | .error e =>
            (⟨false, "Failed to start service: " ++ e, serviceName⟩,
              logServiceAction s serviceName "ERROR"
                ("Failed to start service: " ++ e))

/-- Model of `ServiceManager.restart_service` (`service_manager.py`,
lines 127-147): stop, then `await asyncio.sleep(2)` (a fixed 2-second
pause, a pure no-op in this embedding), then start; the stop result is
returned early exactly when it is a failure whose message does not
contain `"not running"`. -/
def restartService (reg : List (String × ServiceInfo)) (spawn : Except String Proc)
    (s : SMState) (serviceName : String) : ServiceActionResponse × SMState :=
  let stopStep := stopService s serviceName
  if !stopStep.1.success && !containsStr stopStep.1.message "not running" then
    stopStep
  else
    startService reg spawn stopStep.2 serviceName

/-- Model of `ServiceManager.get_service_status` (`service_manager.py`,
lines 149-158): RUNNING when a tracked handle polls alive, otherwise
STOPPED; the method performs no mutation, so the tracked map is
untouched whatever the poll observes. -/
def getServiceStatus (s : SMState) (serviceName : String) : ServiceStatus :=
  match dictLookup s.runningProcesses serviceName with
  | none => ServiceStatus.stopped
  | some proc => if proc.alive then ServiceStatus.running else ServiceStatus.stopped

/-- Model of `ServiceManager.cleanup_stopped_processes`
(`service_manager.py`, lines 266-275): collect the names whose process
has exited, then delete each from the tracked map and log an INFO
entry. -/
def cleanupStoppedProcesses (s : SMState) : SMState :=
  let stoppedServices :=
    (s.runningProcesses.filter (fun p => !p.2.alive)).map (fun p => p.1)
  stoppedServices.foldl
    (fun st name =>
      logServiceAction
        { st with runningProcesses := dictErase st.runningProcesses name }
        name "INFO" ("Service " ++ name ++ " process terminated"))
    s

/-- Monitoring-loop bookkeeping of `HealthMonitor` for
`start_monitoring` (`health_monitor.py`, lines 28-36): the `monitoring`
flag and a count of loop task instances launched and still active
(each `asyncio.create_task(self._monitor_loop())` adds one). -/
structure MonitorLoopState where
  monitoring : Bool
  activeLoops : ℕ
deriving DecidableEq, Repr

/-- Model of `HealthMonitor.start_monitoring` (`health_monitor.py`,
lines 31-36): when not already monitoring, set the flag and launch one
loop task; otherwise do nothing. -/
def startMonitoring (s : MonitorLoopState) : MonitorLoopState :=
  if s.monitoring then s
  else { monitoring := true, activeLoops := s.activeLoops + 1 }

/-- Configuration source consumed by `ServiceRegistry._load_config`
(`service_registry.py`, lines 22-55): either opening/parsing the YAML
file raised (missing file, invalid YAML), or it produced a list of
per-service entries, each of which either constructs a `ServiceInfo` or
raises (missing key, bad category) with a message. -/
inductive ConfigSource where
  | unreadable (err : String)
  | parsed (entries : List (Except String ServiceInfo))

/-- Default `api-gateway` descriptor from
`ServiceRegistry._load_default_services` (`service_registry.py`). -/
def apiGatewayDefault : ServiceInfo :=
  ⟨"api-gateway", 8000, .core, "Central API Gateway", false, "uvicorn",
    "/health", "/docs", "http://localhost:8000"⟩

/-- Default `data-service` descriptor from `_load_default_services`. -/
def dataServiceDefault : ServiceInfo :=
  ⟨"data-service", 8001, .core, "Market Data Service", false, "uvicorn",
    "/health", "/docs", "http://localhost:8001"⟩

/-- Default `web-portal` descriptor from `_load_default_services`. -/
def webPortalDefault : ServiceInfo :=
  ⟨"web-portal", 8006, .ui, "Web Portal Dashboard", true, "uvicorn",
    "/health", "/docs", "http://localhost:8006"⟩

/-- Model of `ServiceRegistry._load_default_services`
(`service_registry.py`, lines 57-96): insert the three built-in
descriptors into the current `services` map (which is not cleared
first). -/
def loadDefaultServices (services : List (String × ServiceInfo)) :
    List (String × ServiceInfo) :=
  [apiGatewayDefault, dataServiceDefault, webPortalDefault].foldl
    (fun m svc => dictInsert m svc.name svc) services

/-- Loop over `config.get('services', [])` in `_load_config`: each entry
constructs a descriptor and is inserted, until an entry raises, which
aborts the loop and jumps to the `except` branch that loads the
defaults over whatever was already inserted. -/
def loadEntries : List (Except String ServiceInfo) → List (String × ServiceInfo) →
    List (String × ServiceInfo)
  | [], m => m
  | .ok svc :: rest, m => loadEntries rest (dictInsert m svc.name svc)
  | .error _ :: _, m => loadDefaultServices m

/-- Model of `ServiceRegistry._load_config` (`service_registry.py`,
lines 22-55): a total function — every exception is caught and answered
by loading the default services, so loading never raises to the
caller. -/
def loadConfig (src : ConfigSource) (services : List (String × ServiceInfo)) :
    List (String × ServiceInfo) :=
  match src with
  | .unreadable _ => loadDefaultServices services
  | .parsed entries => loadEntries entries services

/-- Whether the configuration load hits the `except` branch: the source
is unreadable, or some entry fails to construct. -/
def loadFails : ConfigSource → Bool
  | .unreadable _ => true
  | .parsed entries =>
      entries.any (fun e => match e with | .error _ => true | .ok _ => false)

/-- Heap of `ServiceHealth` objects addressed by identity, for the
aliasing analysis of `get_all_health` (`health_monitor.py`, lines
211-213): Python's `dict.copy()` copies the key table but shares the
`ServiceHealth` objects, which are mutable pydantic models. -/
def heapWrite (heap : ℕ → ServiceHealth) (addr : ℕ) (r : ServiceHealth) :
    ℕ → ServiceHealth :=
  fun a => if a = addr then r else heap a

/-- Monitor's `health_data` table in the aliasing model: names bound to
record addresses. -/
structure MonitorRefState where
  healthData : List (String × ℕ)
deriving DecidableEq, Repr

/-- Model of `HealthMonitor.get_all_health` (`health_monitor.py`, lines
211-213): `self.health_data.copy()` — a fresh table containing the same
name-to-record bindings (the records themselves are not copied). -/
def getAllHealthRefs (mon : MonitorRefState) : List (String × ℕ) :=
  mon.healthData

/-- Dereferencing read of a current health record through the monitor's
own table (as `get_service_health` and the poll loop do). -/
def getServiceHealthRead (heap : ℕ → ServiceHealth) (mon : MonitorRefState)
    (serviceName : String) : Option ServiceHealth :=
  (dictLookup mon.healthData serviceName).map heap

/-! Helper lemmas about the dict model and the alert loop. -/

theorem dictLookup_dictInsert_self {α : Type} (l : List (String × α)) (k : String) (v : α) :
    dictLookup (dictInsert l k v) k = some v := by
  induction l with
  | nil => simp [dictInsert, dictLookup]
  | cons h t ih =>
      obtain ⟨k', v'⟩ := h
      by_cases hk : k' = k
      · simp [dictInsert, hk, dictLookup]
      · simp [dictInsert, hk, dictLookup, ih]

theorem dictLookup_dictInsert_ne {α : Type} (l : List (String × α)) (k k' : String)
    (v : α) (hk : k' ≠ k) : dictLookup (dictInsert l k' v) k = dictLookup l k := by
  induction l with
  | nil => simp [dictInsert, dictLookup, hk]
  | cons h t ih =>
      obtain ⟨k₀, v₀⟩ := h
      by_cases h0 : k₀ = k'
      · simp [dictInsert, h0, dictLookup, hk]
      · simp [dictInsert, h0, dictLookup, ih]

theorem dictInsert_ne_nil {α : Type} (l : List (String × α)) (k : String) (v : α) :
    dictInsert l k v ≠ [] := by
  cases l with
  | nil => simp [dictInsert]
  | cons h t =>
      obtain ⟨k', v'⟩ := h
      by_cases hk : k' = k <;> simp [dictInsert, hk]

theorem dictLookup_eq_none_of_not_mem {α : Type} (l : List (String × α)) (k : String)
    (h : k ∉ l.map Prod.fst) : dictLookup l k = none := by
  induction l with
  | nil => rfl
  | cons p t ih =>
      obtain ⟨k', v'⟩ := p
      simp only [List.map_cons, List.mem_cons, not_or] at h
      have : ¬ k' = k := fun he => h.1 he.symm
      simp only [dictLookup, if_neg this]
      exact ih h.2

theorem dictLookup_dictErase_self {α : Type} (l : List (String × α)) (k : String)
    (hnd : (l.map Prod.fst).Nodup) : dictLookup (dictErase l k) k = none := by
  induction l with
  | nil => rfl
  | cons p t ih =>
      obtain ⟨k', v'⟩ := p
      simp only [List.map_cons, List.nodup_cons] at hnd
      by_cases hk : k' = k
      · subst hk
        simp only [dictErase, if_pos rfl]
        exact dictLookup_eq_none_of_not_mem t k' hnd.1
      · simp only [dictErase, if_neg hk, dictLookup, if_neg hk]
        exact ih hnd.2

theorem foldlAlerts_eq (l : List (String × ServiceHealth)) (acc : List HealthAlert) :
    l.foldl
        (fun alerts p =>
          match alertFor p.1 p.2 with
          | some a => alerts ++ [a]
          | none => alerts)
        acc
      = acc ++ l.filterMap (fun p => alertFor p.1 p.2) := by
  induction l generalizing acc with
  | nil => simp
  | cons h t ih =>
      simp only [List.foldl_cons, List.filterMap_cons]
      cases halert : alertFor h.1 h.2 with
      | none => simp [halert, ih]
      | some a => simp [halert, ih]

/-- C1 counterexample input: an HTTP 200 response whose body fails to
parse as JSON (`response.json()` raises inside the `try` block), so the
stored record is ERROR with the parse error's message and null
latency/uptime — not RUNNING as the claim predicts for every HTTP 200
response. -/
theorem c1_counterexample :
    (classifyHealth 0 none none
        (.ok 200 (.error "Expecting value: line 1 column 1 (char 0)") 1)).status =
      ServiceStatus.error ∧
    (classifyHealth 0 none none
        (.ok 200 (.error "Expecting value: line 1 column 1 (char 0)") 1)).status ≠
      ServiceStatus.running ∧
    (classifyHealth 0 none none
        (.ok 200 (.error "Expecting value: line 1 column 1 (char 0)") 1)).responseTime =
      none ∧
    (classifyHealth 0 none none
        (.ok 200 (.error "Expecting value: line 1 column 1 (char 0)") 1)).uptime =
      none := by
  refine ⟨rfl, ?_, rfl, rfl⟩
  decide

/-- C1 (amended): health-check outcome classification of
`_check_service_health`. An HTTP 200 response whose body parses yields
RUNNING with the measured latency and the body's uptime field; an HTTP
200 response whose body fails to parse falls under the
generic-exception clause (ERROR with the parse error's message); any
other status code yields ERROR with message `"HTTP "` followed by the
code; a timeout yields ERROR `"Request timeout"`; any other exception
yields ERROR with its message; and every record not classified RUNNING
has null latency and uptime. -/
theorem c1_health_classification (now : ℤ) (mem cpu : Option ℚ)
    (code : ℕ) (body : Except String (Option ℚ)) (elapsed : ℚ)
    (uptimeField : Option ℚ) (e msg : String) :
    classifyHealth now mem cpu (.ok 200 (.ok uptimeField) elapsed) =
        ⟨.running, some elapsed, now, none, uptimeField, mem, cpu⟩ ∧
    classifyHealth now mem cpu (.ok 200 (.error e) elapsed) =
        ⟨.error, none, now, some e, none, mem, cpu⟩ ∧
    (code ≠ 200 → classifyHealth now mem cpu (.ok code body elapsed) =
        ⟨.error, none, now, some ("HTTP " ++ toString code), none, mem, cpu⟩) ∧
    classifyHealth now mem cpu .timeout =
        ⟨.error, none, now, some "Request timeout", none, mem, cpu⟩ ∧
    classifyHealth now mem cpu (.exc msg) =
        ⟨.error, none, now, some msg, none, mem, cpu⟩ ∧
    (∀ o : CheckOutcome, (classifyHealth now mem cpu o).status ≠ .running →
        (classifyHealth now mem cpu o).responseTime = none ∧
        (classifyHealth now mem cpu o).uptime = none) := by
  refine ⟨rfl, rfl, ?_, rfl, rfl, ?_⟩
  · intro h
    simp [classifyHealth, h]
  · intro o ho
    cases o with
    | ok c b t =>
        by_cases hc : c = 200
        · subst hc
          cases b with
          | ok u => exact absurd rfl ho
          | error e' => exact ⟨rfl, rfl⟩
        · constructor <;> simp [classifyHealth, hc]
    | timeout => exact ⟨rfl, rfl⟩
    | exc m => exact ⟨rfl, rfl⟩

/-- Witness for `c1_health_classification` at a concrete non-200 code
and a concrete timeout outcome. -/
theorem c1_health_classification_witness :
    classifyHealth 0 none none (.ok 503 (.ok none) 1) =
        ⟨.error, none, 0, some ("HTTP " ++ toString 503), none, none, none⟩ ∧
    ((classifyHealth 0 none none .timeout).responseTime = none ∧
      (classifyHealth 0 none none .timeout).uptime = none) :=
  ⟨(c1_health_classification 0 none none 503 (.ok none) 1 none "" "").2.2.1
      (by decide),
    (c1_health_classification 0 none none 503 (.ok none) 1 none "" "").2.2.2.2.2
      .timeout (by decide)⟩

/-- C2: `get_health_alerts` emits at most one alert per health record —
the loop is a `filterMap` of the per-record `if`/`elif`/`elif` chain,
so the alert list is never longer than the health map; a record in
ERROR yields an "error" alert whose message is the stored error or the
generic fallback; otherwise STOPPED yields a "warning" alert; otherwise
a truthy latency above 5.0 yields a "warning" (high response time)
alert; otherwise no alert. In particular one service in ERROR plus one
RUNNING service with latency 6.0 yield exactly two alerts, one "error"
and one "warning". -/
theorem c2_alert_derivation :
    (∀ allHealth : List (String × ServiceHealth),
        getHealthAlerts allHealth =
          allHealth.filterMap (fun p => alertFor p.1 p.2)) ∧
    (∀ allHealth : List (String × ServiceHealth),
        (getHealthAlerts allHealth).length ≤ allHealth.length) ∧
    (∀ n : String, ∀ h : ServiceHealth, h.status = ServiceStatus.error →
        alertFor n h =
          some ⟨n, "error", pyOrStr h.errorMessage "Service is in error state",
            h.lastCheck, h.responseTime⟩) ∧
    (∀ n : String, ∀ h : ServiceHealth, h.status = ServiceStatus.stopped →
        alertFor n h =
          some ⟨n, "warning", "Service is stopped", h.lastCheck, h.responseTime⟩) ∧
    (∀ n : String, ∀ h : ServiceHealth, ∀ t : ℚ,
        h.status ≠ ServiceStatus.error → h.status ≠ ServiceStatus.stopped →
        h.responseTime = some t → t > 5 →
        alertFor n h =
          some ⟨n, "warning", "High response time: " ++ formatTime2 t ++ "s",
            h.lastCheck, h.responseTime⟩) ∧
    (∀ n : String, ∀ h : ServiceHealth,
        h.status ≠ ServiceStatus.error → h.status ≠ ServiceStatus.stopped →
        highLatency h.responseTime = false → alertFor n h = none) ∧
    getHealthAlerts
        [("svc-a", ⟨.error, none, 0, some "boom", none, none, none⟩),
         ("svc-b", ⟨.running, some 6, 0, none, none, none, none⟩)] =
      [⟨"svc-a", "error", "boom", 0, none⟩,
       ⟨"svc-b", "warning", "High response time: 6.00s", 0, some 6⟩] := by
  have hfm : ∀ allHealth : List (String × ServiceHealth),
      getHealthAlerts allHealth =
        allHealth.filterMap (fun p => alertFor p.1 p.2) := by
    intro allHealth
    simpa [getHealthAlerts] using foldlAlerts_eq allHealth []
  refine ⟨hfm, ?_, ?_, ?_, ?_, ?_, ?_⟩
  · intro allHealth
    rw [hfm]
    exact List.length_filterMap_le _ _
  · intro n h hs
    simp [alertFor, hs]
  · intro n h hs
    simp [alertFor, hs]
  · intro n h t hne hns hrt ht
    have ht0 : t ≠ 0 := by
      intro h0
      rw [h0] at ht
      norm_num at ht
    simp [alertFor, hne, hns, highLatency, hrt, ht0, ht, if_neg, Option.getD]
  · intro n h hne hns hlat
    simp [alertFor, hne, hns, hlat]
  · have h : round ((6 : ℚ) * 100) = 600 := by norm_num [round_eq]
    simp +decide [getHealthAlerts, alertFor, highLatency, pyOrStr, formatTime2, h]

/-- Witness for `c2_alert_derivation` at concrete records: an ERROR
record yields the "error" alert with the stored message, and a RUNNING
record with latency 6 yields the "warning" high-response-time alert. -/
theorem c2_alert_derivation_witness :
    alertFor "svc-a" ⟨.error, none, 0, some "boom", none, none, none⟩ =
      some ⟨"svc-a", "error",
        pyOrStr (some "boom") "Service is in error state", 0, none⟩ ∧
    alertFor "svc-b" ⟨.running, some 6, 0, none, none, none, none⟩ =
      some ⟨"svc-b", "warning", "High response time: " ++ formatTime2 6 ++ "s",
        0, some 6⟩ :=
  ⟨c2_alert_derivation.2.2.1 "svc-a" ⟨.error, none, 0, some "boom", none, none, none⟩
      rfl,
    c2_alert_derivation.2.2.2.2.1 "svc-b"
      ⟨.running, some 6, 0, none, none, none, none⟩ 6 (by decide) (by decide) rfl
      (by norm_num)⟩

/-- C7: `start_monitoring` is idempotent — calling it twice in a row
equals calling it once; calling it while the monitoring flag is already
set is a no-op that launches no loop task; and two consecutive calls
from a fresh monitor (flag clear, no active loop) leave exactly one
active polling loop. -/
theorem c7_start_monitoring_idempotent (s : MonitorLoopState) :
    startMonitoring (startMonitoring s) = startMonitoring s ∧
    (s.monitoring = true → startMonitoring s = s) ∧
    (s.monitoring = false → s.activeLoops = 0 →
      (startMonitoring (startMonitoring s)).activeLoops = 1) := by
  refine ⟨?_, ?_, ?_⟩
  · by_cases h : s.monitoring
    · simp [startMonitoring, h]
    · simp [startMonitoring, h]
  · intro h
    simp [startMonitoring, h]
  · intro h h0
    simp [startMonitoring, h, h0]

/-- Witness for `c7_start_monitoring_idempotent` on the initial monitor
state of `HealthMonitor.__init__` (`monitoring = False`, no loop
task). -/
theorem c7_start_monitoring_idempotent_witness :
    (startMonitoring (startMonitoring ⟨false, 0⟩)).activeLoops = 1 ∧
    startMonitoring (startMonitoring ⟨false, 0⟩) = startMonitoring ⟨false, 0⟩ :=
  ⟨(c7_start_monitoring_idempotent ⟨false, 0⟩).2.2 rfl rfl,
    (c7_start_monitoring_idempotent ⟨false, 0⟩).1⟩

/-- Helper for C5: one `appendTrimMetrics` step keeps the list at the
cap and equal to the suffix of the logical append stream. -/
theorem foldl_appendTrimMetrics (samples : List ServiceMetrics) :
    ∀ init : List ServiceMetrics, init.length ≤ 1000 →
      samples.foldl appendTrimMetrics init =
        (init ++ samples).drop (init.length + samples.length - 1000) := by
  induction samples with
  | nil =>
      intro init hle
      simp [Nat.sub_eq_zero_of_le hle]
  | cons m rest ih =>
      intro init hle
      rw [List.foldl_cons]
      by_cases hfull : init.length = 1000
      · have hstep : appendTrimMetrics init m = (init ++ [m]).drop 1 := by
          simp [appendTrimMetrics, hfull]
        have hlen : (appendTrimMetrics init m).length = 1000 := by
          rw [hstep]
          simp [hfull]
        have := ih (appendTrimMetrics init m) (le_of_eq hlen)
        rw [this, hstep]
        have hdrop : (init ++ [m]).drop 1 ++ rest = (init ++ m :: rest).drop 1 := by
          cases init with
          | nil => simp at hfull
          | cons a t => simp
        rw [hdrop, List.drop_drop]
        have hidx : 1 + (((init ++ [m]).drop 1).length + rest.length - 1000) =
            init.length + (m :: rest).length - 1000 := by
          simp only [List.length_drop, List.length_append, List.length_cons,
            List.length_nil, hfull]
          omega
        rw [hidx]
      · have hlt : init.length < 1000 := lt_of_le_of_ne hle hfull
        have hstep : appendTrimMetrics init m = init ++ [m] := by
          have : (init ++ [m]).length ≤ 1000 := by simp; omega
          simp only [appendTrimMetrics]
          rw [if_neg (by omega)]
        have hlen : (appendTrimMetrics init m).length = init.length + 1 := by
          rw [hstep]; simp
        have := ih (appendTrimMetrics init m) (by omega)
        rw [this, hstep]
        have harr : (init ++ [m]) ++ rest = init ++ m :: rest := by simp
        rw [harr]
        have hidx : (init ++ [m]).length + rest.length - 1000 =
            init.length + (m :: rest).length - 1000 := by
          simp only [List.length_append, List.length_cons, List.length_nil]
          omega
        rw [hidx]

/-- C5: the metrics list is capped at 1000 samples globally — starting
from any in-cap list, folding appends through `appendTrimMetrics`
leaves `min (initial + inserted) 1000` samples, and the survivors are
exactly the most recent suffix of the logical insertion stream; in
particular inserting 1005 samples into an empty list leaves exactly the
1000 most recently inserted (the oldest 5 dropped). The cap is on the
single global list, not per service: the inserted samples may carry any
mix of service names. -/
theorem c5_metrics_cap (init samples : List ServiceMetrics)
    (hinit : init.length ≤ 1000) :
    samples.foldl appendTrimMetrics init =
        (init ++ samples).drop (init.length + samples.length - 1000) ∧
    (samples.foldl appendTrimMetrics init).length =
        min (init.length + samples.length) 1000 ∧
    (init = [] → samples.length = 1005 →
      samples.foldl appendTrimMetrics init = samples.drop 5 ∧
      (samples.foldl appendTrimMetrics init).length = 1000) := by
  have hmain := foldl_appendTrimMetrics samples init hinit
  refine ⟨hmain, ?_, ?_⟩
  · rw [hmain]
    simp only [List.length_drop, List.length_append]
    omega
  · intro hnil hlen
    subst hnil
    constructor
    · rw [hmain]
      simp [hlen]
    · rw [hmain]
      simp only [List.length_drop, List.length_append]
      omega

/-- Witness for `c5_metrics_cap`: 1005 concrete samples (distinct
timestamps) inserted into the empty list leave exactly the last 1000. -/
theorem c5_metrics_cap_witness :
    ((List.range 1005).map
        (fun (i : ℕ) => (⟨"svc", (i : ℤ), 1, 0, 0, 0, 0⟩ : ServiceMetrics))).foldl
        appendTrimMetrics [] =
      ((List.range 1005).map
        (fun (i : ℕ) => (⟨"svc", (i : ℤ), 1, 0, 0, 0, 0⟩ : ServiceMetrics))).drop 5 ∧
    (((List.range 1005).map
        (fun (i : ℕ) => (⟨"svc", (i : ℤ), 1, 0, 0, 0, 0⟩ : ServiceMetrics))).foldl
        appendTrimMetrics []).length = 1000 :=
  (c5_metrics_cap []
      ((List.range 1005).map
        (fun (i : ℕ) => (⟨"svc", (i : ℤ), 1, 0, 0, 0, 0⟩ : ServiceMetrics)))
      (by simp)).2.2 rfl (by rw [List.length_map, List.length_range])

/-- C6 counterexample input: `get_health_history` is called with the
empty string as the service name; Python's `if service_name:` treats it
as falsy, so the result is not filtered to the named service — an entry
of a different service (`"x"`) is returned. -/
theorem c6_counterexample :
    getHealthHistory 0 [⟨"x", -1, .running, none, none⟩] (some "") 24 =
      [⟨"x", -1, .running, none, none⟩] ∧
    ("x" : String) ≠ "" := by
  constructor
  · decide
  · decide

/-- C6 (amended): entries older than the 24-hour retention window are
pruned by every `_check_service_health` run (every surviving history
entry is strictly newer than `now` minus 24 hours, so an entry
timestamped 25 hours in the past is absent from
`get_health_history(None, 24)` after a cycle); and `get_health_history`
returns a permutation of exactly the retained entries inside the
trailing `hours` window — filtered to the named service when a
non-empty name is given (the empty string, being falsy in Python,
disables the filter) — sorted ascending by timestamp. -/
theorem c6_history_pruning_and_query :
    (∀ (now : ℤ) (name : String) (outcome : CheckOutcome) (mem cpu : Option ℚ)
        (st : MonitorData) (e : HealthHistory),
        e ∈ (checkServiceStep now name outcome mem cpu st).healthHistory →
        e.timestamp > now - 24 * 3600) ∧
    (∀ (now : ℤ) (name : String) (outcome : CheckOutcome) (mem cpu : Option ℚ)
        (st : MonitorData) (e : HealthHistory),
        e.timestamp = now - 25 * 3600 →
        e ∉ getHealthHistory now
          (checkServiceStep now name outcome mem cpu st).healthHistory none 24) ∧
    (∀ (now : ℤ) (history : List HealthHistory) (hours : ℤ),
        (getHealthHistory now history none hours).Perm
          (history.filter (fun h => decide (h.timestamp > now - hours * 3600)))) ∧
    (∀ (now : ℤ) (history : List HealthHistory) (hours : ℤ) (n : String),
        n ≠ "" →
        (getHealthHistory now history (some n) hours).Perm
          ((history.filter (fun h => decide (h.timestamp > now - hours * 3600))).filter
            (fun h => decide (h.serviceName = n)))) ∧
    (∀ (now : ℤ) (history : List HealthHistory) (serviceName : Option String)
        (hours : ℤ),
        List.Sorted hhLe (getHealthHistory now history serviceName hours)) := by
  have hmem : ∀ (now : ℤ) (name : String) (outcome : CheckOutcome)
      (mem cpu : Option ℚ) (st : MonitorData) (e : HealthHistory),
      e ∈ (checkServiceStep now name outcome mem cpu st).healthHistory →
      e.timestamp > now - 24 * 3600 := by
    intro now name outcome mem cpu st e he
    simp only [checkServiceStep, pruneHistory, List.mem_filter] at he
    exact of_decide_eq_true he.2
  refine ⟨hmem, ?_, ?_, ?_, ?_⟩
  · intro now name outcome mem cpu st e hts hmem'
    simp only [getHealthHistory, List.mem_insertionSort, List.mem_filter] at hmem'
    have := of_decide_eq_true hmem'.2
    omega
  · intro now history hours
    exact List.perm_insertionSort hhLe _
  · intro now history hours n hn
    simp only [getHealthHistory, if_neg hn]
    have := List.perm_insertionSort hhLe
      ((history.filter (fun h => decide (h.timestamp > now - hours * 3600))).filter
        (fun h => decide (h.serviceName = n)))
    simpa using this
  · intro now history serviceName hours
    exact List.sorted_insertionSort hhLe _

/-- Witness for `c6_history_pruning_and_query`: a concrete cycle at
`now = 0` excludes a 25-hour-old entry from the default query, and a
concrete non-empty name filters to that service. -/
theorem c6_history_pruning_and_query_witness :
    (⟨"old", -90000, .running, none, none⟩ : HealthHistory) ∉
      getHealthHistory 0
        (checkServiceStep 0 "svc" .timeout none none ⟨[], [], []⟩).healthHistory
        none 24 ∧
    (getHealthHistory 0 [⟨"x", -1, .running, none, none⟩] (some "svc") 24).Perm
      (([(⟨"x", -1, .running, none, none⟩ : HealthHistory)].filter
          (fun h => decide (h.timestamp > 0 - 24 * 3600))).filter
        (fun h => decide (h.serviceName = "svc"))) :=
  ⟨c6_history_pruning_and_query.2.1 0 "svc" .timeout none none ⟨[], [], []⟩
      ⟨"old", -90000, .running, none, none⟩ (by decide),
    c6_history_pruning_and_query.2.2.2.1 0 [⟨"x", -1, .running, none, none⟩] 24
      "svc" (by decide)⟩

/-! Helper lemmas for the substring test used by `restart_service`. -/

theorem isPrefixOf_append_self (l post : List Char) :
    List.isPrefixOf l (l ++ post) = true := by
  induction l with
  | nil => simp [List.isPrefixOf]
  | cons c t ih => simp [List.isPrefixOf, ih]

theorem listContainsSub_of_infix (needle pre post : List Char) :
    listContainsSub needle (pre ++ (needle ++ post)) = true := by
  induction pre with
  | nil =>
      cases hcase : needle ++ post with
      | nil =>
          have hn : needle = [] := by
            cases needle with
            | nil => rfl
            | cons c t => simp at hcase
          simp [hn, listContainsSub]
      | cons c t =>
          have hstep : listContainsSub needle (c :: t) =
              (List.isPrefixOf needle (c :: t) || listContainsSub needle t) := rfl
          rw [List.nil_append, hstep, ← hcase, isPrefixOf_append_self, Bool.true_or]
  | cons c pre' ih =>
      rw [List.cons_append]
      have hstep : listContainsSub needle (c :: (pre' ++ (needle ++ post))) =
          (List.isPrefixOf needle (c :: (pre' ++ (needle ++ post))) ||
            listContainsSub needle (pre' ++ (needle ++ post))) := rfl
      rw [hstep, ih, Bool.or_true]

theorem containsStr_notRunning (name : String) :
    containsStr ("Service " ++ name ++ " is not running") "not running" = true := by
  unfold containsStr
  have hdata : ("Service " ++ name ++ " is not running").data =
      ("Service ".data ++ name.data ++ " is ".data) ++
        ("not running".data ++ []) := by
    rw [String.data_append, String.data_append]
    show "Service ".data ++ name.data ++ (" is ".data ++ "not running".data) =
      "Service ".data ++ name.data ++ " is ".data ++ ("not running".data ++ [])
    simp [List.append_assoc]
  rw [hdata]
  exact listContainsSub_of_infix _ _ _

theorem failedStop_ne_notRunning (e name : String) :
    ("Failed to stop service: " ++ e) ≠ ("Service " ++ name ++ " is not running") := by
  intro h
  have h2 := congrArg (fun s => s.data.head?) h
  simp only [String.data_append, List.head?_append] at h2
  simp at h2

/-- Helper: `_log_service_action` never touches the tracked-process
map. -/
theorem logServiceAction_runningProcesses (s : SMState) (n level msg : String) :
    (logServiceAction s n level msg).runningProcesses = s.runningProcesses := rfl

/-- Helper: after `_log_service_action`, the last log entry of the
service is the one just appended (it survives the per-service 1000
trim, which keeps a suffix). -/
theorem logServiceAction_getLast (s : SMState) (n level msg : String) :
    ((dictLookup (logServiceAction s n level msg).serviceLogs n).getD []).getLast? =
      some ⟨n, level, msg, "service_manager"⟩ := by
  unfold logServiceAction
  rw [dictLookup_dictInsert_self]
  simp only [Option.getD_some]
  set logs0 := (dictLookup s.serviceLogs n).getD [] with hlogs0
  by_cases hlen : (logs0 ++ [(⟨n, level, msg, "service_manager"⟩ : ServiceLog)]).length > 1000
  · rw [if_pos hlen]
    have hk : (logs0 ++ [(⟨n, level, msg, "service_manager"⟩ : ServiceLog)]).length - 1000 ≤
        logs0.length := by
      simp only [List.length_append, List.length_cons, List.length_nil]
      omega
    rw [List.drop_append_of_le_length hk, List.getLast?_concat]
  · rw [if_neg hlen, List.getLast?_concat]

/-- C3: `restart_service` is stop, then the fixed 2-second pause, then
start. A stop failure is propagated as the overall result exactly when
its message does not contain `"not running"`; otherwise (stop
succeeded, or it failed with the structured "not running" message) the
overall result is the start's result on the post-stop state. On a
never-started service (no tracked handle) the internal stop fails with
"... is not running", so restart proceeds to start on the unchanged
state, and when the registry knows the name and the spawn succeeds the
overall result is a success. -/
theorem c3_restart_semantics (reg : List (String × ServiceInfo))
    (spawn : Except String Proc) (s : SMState) (serviceName : String) :
    ((stopService s serviceName).1.success = false →
      containsStr (stopService s serviceName).1.message "not running" = false →
      restartService reg spawn s serviceName = stopService s serviceName) ∧
    ((stopService s serviceName).1.success = true ∨
        containsStr (stopService s serviceName).1.message "not running" = true →
      restartService reg spawn s serviceName =
        startService reg spawn (stopService s serviceName).2 serviceName) ∧
    (dictLookup s.runningProcesses serviceName = none →
      restartService reg spawn s serviceName =
        startService reg spawn s serviceName) ∧
    (dictLookup s.runningProcesses serviceName = none →
      (dictLookup reg serviceName).isSome = true →
      ∀ p : Proc, spawn = Except.ok p →
        (restartService reg spawn s serviceName).1.success = true) := by
  have hnone : dictLookup s.runningProcesses serviceName = none →
      restartService reg spawn s serviceName =
        startService reg spawn s serviceName := by
    intro hlook
    have hstop : stopService s serviceName =
        (⟨false, "Service " ++ serviceName ++ " is not running", serviceName⟩, s) := by
      simp [stopService, hlook]
    simp [restartService, hstop, containsStr_notRunning]
  refine ⟨?_, ?_, hnone, ?_⟩
  · intro hsucc hcont
    simp [restartService, hsucc, hcont]
  · intro hdisj
    cases hdisj with
    | inl hsucc => simp [restartService, hsucc]
    | inr hcont => simp [restartService, hcont]
  · intro hlook hreg p hspawn
    rw [hnone hlook]
    obtain ⟨info, hinfo⟩ := Option.isSome_iff_exists.mp hreg
    subst hspawn
    simp [startService, hinfo, hlook]

/-- Witness for `c3_restart_semantics`: restarting a never-started
service with a one-entry registry and a successful spawn yields an
overall success, and the overall result is exactly the start result. -/
theorem c3_restart_semantics_witness :
    (restartService [("svc", apiGatewayDefault)] (Except.ok ⟨9, true, none⟩)
        ⟨[], []⟩ "svc").1.success = true ∧
    restartService [("svc", apiGatewayDefault)] (Except.ok ⟨9, true, none⟩)
        ⟨[], []⟩ "svc" =
      startService [("svc", apiGatewayDefault)] (Except.ok ⟨9, true, none⟩)
        ⟨[], []⟩ "svc" :=
  ⟨(c3_restart_semantics [("svc", apiGatewayDefault)] (Except.ok ⟨9, true, none⟩)
      ⟨[], []⟩ "svc").2.2.2 rfl rfl ⟨9, true, none⟩ rfl,
    (c3_restart_semantics [("svc", apiGatewayDefault)] (Except.ok ⟨9, true, none⟩)
      ⟨[], []⟩ "svc").2.2.1 rfl⟩

/-- C10: `stop_service` returns the structured "is not running" failure
exactly when no handle at all is tracked for the name; when a handle is
tracked but its process has already exited on its own (and the OS
terminate call raises nothing, as it cannot for an exited child),
`stop_service` still returns success, removes the handle from the
tracked map, and appends an INFO log entry. -/
theorem c10_stop_dead_process (s : SMState) (serviceName : String) :
    ((stopService s serviceName).1 =
        ⟨false, "Service " ++ serviceName ++ " is not running", serviceName⟩ ↔
      dictLookup s.runningProcesses serviceName = none) ∧
    (∀ p : Proc, dictLookup s.runningProcesses serviceName = some p →
      p.alive = false → p.terminateRaises = none →
      (stopService s serviceName).1 =
          ⟨true, "Service " ++ serviceName ++ " stopped successfully", serviceName⟩ ∧
      ((s.runningProcesses.map Prod.fst).Nodup →
        dictLookup (stopService s serviceName).2.runningProcesses serviceName = none) ∧
      ((dictLookup (stopService s serviceName).2.serviceLogs serviceName).getD
          []).getLast? =
        some ⟨serviceName, "INFO", "Service " ++ serviceName ++ " stopped",
          "service_manager"⟩) := by
  constructor
  · constructor
    · intro hresp
      cases hlook : dictLookup s.runningProcesses serviceName with
      | none => rfl
      | some p =>
          cases hterm : p.terminateRaises with
          | some e =>
              have : (stopService s serviceName).1 =
                  ⟨false, "Failed to stop service: " ++ e, serviceName⟩ := by
                simp [stopService, hlook, hterm]
              rw [this] at hresp
              exact absurd (congrArg ServiceActionResponse.message hresp)
                (failedStop_ne_notRunning e serviceName)
          | none =>
              have : (stopService s serviceName).1.success = true := by
                simp [stopService, hlook, hterm]
              rw [hresp] at this
              simp at this
    · intro hlook
      simp [stopService, hlook]
  · intro p hlook _ hterm
    refine ⟨by simp [stopService, hlook, hterm], ?_, ?_⟩
    · intro hnd
      have hst : (stopService s serviceName).2 =
          logServiceAction
            { s with runningProcesses := dictErase s.runningProcesses serviceName }
            serviceName "INFO" ("Service " ++ serviceName ++ " stopped") := by
        simp [stopService, hlook, hterm]
      rw [hst, logServiceAction_runningProcesses]
      exact dictLookup_dictErase_self s.runningProcesses serviceName hnd
    · have hst : (stopService s serviceName).2 =
          logServiceAction
            { s with runningProcesses := dictErase s.runningProcesses serviceName }
            serviceName "INFO" ("Service " ++ serviceName ++ " stopped") := by
        simp [stopService, hlook, hterm]
      rw [hst]
      exact logServiceAction_getLast _ _ _ _

/-- Witness for `c10_stop_dead_process`: a tracked handle whose process
has exited (`poll()` non-None) is stopped successfully, untracked
afterwards, with the INFO entry as the last log line. -/
theorem c10_stop_dead_process_witness :
    (stopService ⟨[("svc", ⟨3, false, none⟩)], []⟩ "svc").1 =
        ⟨true, "Service " ++ "svc" ++ " stopped successfully", "svc"⟩ ∧
    dictLookup (stopService ⟨[("svc", ⟨3, false, none⟩)], []⟩ "svc").2.runningProcesses
        "svc" = none ∧
    ((dictLookup (stopService ⟨[("svc", ⟨3, false, none⟩)], []⟩ "svc").2.serviceLogs
        "svc").getD []).getLast? =
      some ⟨"svc", "INFO", "Service " ++ "svc" ++ " stopped", "service_manager"⟩ :=
  ⟨((c10_stop_dead_process ⟨[("svc", ⟨3, false, none⟩)], []⟩ "svc").2
      ⟨3, false, none⟩ rfl rfl rfl).1,
    ((c10_stop_dead_process ⟨[("svc", ⟨3, false, none⟩)], []⟩ "svc").2
      ⟨3, false, none⟩ rfl rfl rfl).2.1 (by decide),
    ((c10_stop_dead_process ⟨[("svc", ⟨3, false, none⟩)], []⟩ "svc").2
      ⟨3, false, none⟩ rfl rfl rfl).2.2⟩

/-- Helper: the state folded through `cleanup_stopped_processes` only
erases names from the tracked map (logging does not touch it). -/
theorem cleanup_foldl_runningProcesses (names : List String) :
    ∀ s : SMState,
      (names.foldl
          (fun st name =>
            logServiceAction
              { st with runningProcesses := dictErase st.runningProcesses name }
              name "INFO" ("Service " ++ name ++ " process terminated"))
          s).runningProcesses =
        names.foldl (fun m n => dictErase m n) s.runningProcesses := by
  induction names with
  | nil => intro s; rfl
  | cons n rest ih =>
      intro s
      rw [List.foldl_cons, List.foldl_cons]
      rw [ih]
      rfl

/-- Helper: erasing a batch of names not containing `k` leaves a
`(k, v)` head entry in place. -/
theorem foldl_dictErase_cons {α : Type} (names : List String) :
    ∀ (t : List (String × α)) (k : String) (v : α), k ∉ names →
      names.foldl (fun m n => dictErase m n) ((k, v) :: t) =
        (k, v) :: names.foldl (fun m n => dictErase m n) t := by
  induction names with
  | nil => intro t k v _; rfl
  | cons n rest ih =>
      intro t k v hk
      simp only [List.mem_cons, not_or] at hk
      rw [List.foldl_cons, List.foldl_cons]
      have hne : ¬ k = n := hk.1
      have : dictErase ((k, v) :: t) n = (k, v) :: dictErase t n := by
        simp [dictErase, hne]
      rw [this, ih _ _ _ hk.2]

/-- Helper: erasing exactly the names of the dead entries from a
unique-key tracked map keeps exactly the live entries. -/
theorem foldl_dictErase_dead (l : List (String × Proc))
    (hnd : (l.map Prod.fst).Nodup) :
    ((l.filter (fun p => !p.2.alive)).map Prod.fst).foldl
        (fun m n => dictErase m n) l =
      l.filter (fun p => p.2.alive) := by
  induction l with
  | nil => rfl
  | cons h t ih =>
      obtain ⟨k, v⟩ := h
      simp only [List.map_cons, List.nodup_cons] at hnd
      have hsub : ∀ n ∈ (t.filter (fun p => !p.2.alive)).map Prod.fst,
          n ∈ t.map Prod.fst := by
        intro n hn
        simp only [List.mem_map, List.mem_filter] at hn
        obtain ⟨p, ⟨hp, _⟩, hpn⟩ := hn
        exact List.mem_map.mpr ⟨p, hp, hpn⟩
      have hknot : k ∉ (t.filter (fun p => !p.2.alive)).map Prod.fst :=
        fun hmem => hnd.1 (hsub k hmem)
      by_cases halive : v.alive
      · have hfilter : ((k, v) :: t).filter (fun p => !p.2.alive) =
            t.filter (fun p => !p.2.alive) := by
          simp [List.filter_cons, halive]
        rw [hfilter, foldl_dictErase_cons _ _ _ _ hknot, ih hnd.2]
        simp [List.filter_cons, halive]
      · have hfilter : ((k, v) :: t).filter (fun p => !p.2.alive) =
            (k, v) :: t.filter (fun p => !p.2.alive) := by
          simp [List.filter_cons, halive]
        rw [hfilter]
        simp only [List.map_cons, List.foldl_cons]
        have herase : dictErase ((k, v) :: t) k = t := by
          simp [dictErase]
        rw [herase, ih hnd.2]
        simp [List.filter_cons, halive]

/-- C4 counterexample input: a tracked handle whose process has exited.
`get_service_status` polls it, observes the death (returns STOPPED
because `poll()` is non-None), yet performs no mutation — the name
stays in the tracked-process map with its dead handle, so an operation
that observes a dead process does leave its handle tracked. -/
theorem c4_counterexample :
    getServiceStatus ⟨[("svc", ⟨7, false, none⟩)], []⟩ "svc" =
      ServiceStatus.stopped ∧
    (Proc.alive ⟨7, false, none⟩) = false ∧
    dictContains (SMState.runningProcesses ⟨[("svc", ⟨7, false, none⟩)], []⟩)
      "svc" = true := by
  refine ⟨rfl, rfl, rfl⟩

/-- C4 (amended): a successful explicit stop removes the name from the
tracked map, and `cleanup_stopped_processes` removes exactly the
handles whose processes have exited (afterwards every tracked process
polls alive); but a read-only observation of a dead process —
`get_service_status` — reports STOPPED without removing the handle, so
between a process's death and the next stop/cleanup the dead handle
remains tracked. -/
theorem c4_process_tracking (s : SMState) (serviceName : String) :
    ((s.runningProcesses.map Prod.fst).Nodup →
      (cleanupStoppedProcesses s).runningProcesses =
        s.runningProcesses.filter (fun p => p.2.alive)) ∧
    ((stopService s serviceName).1.success = true →
      (s.runningProcesses.map Prod.fst).Nodup →
      dictLookup (stopService s serviceName).2.runningProcesses serviceName =
        none) ∧
    (∀ p : Proc, dictLookup s.runningProcesses serviceName = some p →
      p.alive = false →
      getServiceStatus s serviceName = ServiceStatus.stopped) := by
  refine ⟨?_, ?_, ?_⟩
  · intro hnd
    unfold cleanupStoppedProcesses
    rw [cleanup_foldl_runningProcesses]
    exact foldl_dictErase_dead s.runningProcesses hnd
  · intro hsucc hnd
    cases hlook : dictLookup s.runningProcesses serviceName with
    | none =>
        have : (stopService s serviceName).1.success = false := by
          simp [stopService, hlook]
        rw [hsucc] at this
        simp at this
    | some p =>
        cases hterm : p.terminateRaises with
        | some e =>
            have : (stopService s serviceName).1.success = false := by
              simp [stopService, hlook, hterm]
            rw [hsucc] at this
            simp at this
        | none =>
            have hst : (stopService s serviceName).2 =
                logServiceAction
                  { s with runningProcesses :=
                      dictErase s.runningProcesses serviceName }
                  serviceName "INFO" ("Service " ++ serviceName ++ " stopped") := by
              simp [stopService, hlook, hterm]
            rw [hst, logServiceAction_runningProcesses]
            exact dictLookup_dictErase_self s.runningProcesses serviceName hnd
  · intro p hlook hdead
    simp [getServiceStatus, hlook, hdead]

/-- Witness for `c4_process_tracking`: cleaning up a map with one dead
and one live handle keeps exactly the live one, and a successful stop
untracks the stopped name. -/
theorem c4_process_tracking_witness :
    (cleanupStoppedProcesses
        ⟨[("dead", ⟨1, false, none⟩), ("live", ⟨2, true, none⟩)], []⟩).runningProcesses =
      ([("dead", (⟨1, false, none⟩ : Proc)), ("live", ⟨2, true, none⟩)].filter
        (fun p => p.2.alive)) ∧
    dictLookup
        (stopService ⟨[("dead", ⟨1, false, none⟩), ("live", ⟨2, true, none⟩)], []⟩
          "dead").2.runningProcesses "dead" = none ∧
    getServiceStatus ⟨[("dead", ⟨1, false, none⟩), ("live", ⟨2, true, none⟩)], []⟩
        "dead" = ServiceStatus.stopped :=
  ⟨(c4_process_tracking
      ⟨[("dead", ⟨1, false, none⟩), ("live", ⟨2, true, none⟩)], []⟩ "dead").1
      (by decide),
    (c4_process_tracking
      ⟨[("dead", ⟨1, false, none⟩), ("live", ⟨2, true, none⟩)], []⟩ "dead").2.1
      (by decide) (by decide),
    (c4_process_tracking
      ⟨[("dead", ⟨1, false, none⟩), ("live", ⟨2, true, none⟩)], []⟩ "dead").2.2
      ⟨1, false, none⟩ rfl rfl⟩

/-- Helper: after `_load_default_services`, the `api-gateway` default
descriptor is present (the later default inserts use other names). -/
theorem lookup_loadDefaultServices_apiGateway (m : List (String × ServiceInfo)) :
    dictLookup (loadDefaultServices m) "api-gateway" = some apiGatewayDefault := by
  unfold loadDefaultServices
  simp only [List.foldl_cons, List.foldl_nil]
  rw [dictLookup_dictInsert_ne _ _ _ _ (by decide),
    dictLookup_dictInsert_ne _ _ _ _ (by decide)]
  have hname : apiGatewayDefault.name = "api-gateway" := rfl
  rw [← hname, dictLookup_dictInsert_self]

/-- Helper: `_load_default_services` never leaves the registry empty. -/
theorem loadDefaultServices_ne_nil (m : List (String × ServiceInfo)) :
    loadDefaultServices m ≠ [] := by
  unfold loadDefaultServices
  simp only [List.foldl_cons, List.foldl_nil]
  exact dictInsert_ne_nil _ _ _

/-- Helper: when some configuration entry fails to construct, the entry
loop ends in `_load_default_services`, whatever was inserted before. -/
theorem loadEntries_fail (entries : List (Except String ServiceInfo))
    (hfail : entries.any
        (fun e => match e with | .error _ => true | .ok _ => false) = true) :
    ∀ m : List (String × ServiceInfo),
      dictLookup (loadEntries entries m) "api-gateway" = some apiGatewayDefault ∧
      loadEntries entries m ≠ [] := by
  induction entries with
  | nil => simp at hfail
  | cons e rest ih =>
      intro m
      cases e with
      | error msg =>
          exact ⟨lookup_loadDefaultServices_apiGateway m,
            loadDefaultServices_ne_nil m⟩
      | ok svc =>
          simp only [List.any_cons, Bool.false_or] at hfail
          exact ih hfail (dictInsert m svc.name svc)

/-- C9: whenever the registry load fails — the configuration source is
unreadable (absent file, invalid YAML) or any service entry fails to
construct — `_load_config` falls back to the built-in default set: the
loaded registry contains the `api-gateway` default, a CORE service, and
is never empty; `loadConfig` is a total function, so loading never
raises to the caller. -/
theorem c9_registry_fallback (src : ConfigSource)
    (services : List (String × ServiceInfo)) (hfail : loadFails src = true) :
    dictLookup (loadConfig src services) "api-gateway" = some apiGatewayDefault ∧
    apiGatewayDefault.category = ServiceCategory.core ∧
    loadConfig src services ≠ [] := by
  cases src with
  | unreadable err =>
      exact ⟨lookup_loadDefaultServices_apiGateway services, rfl,
        loadDefaultServices_ne_nil services⟩
  | parsed entries =>
      have h := loadEntries_fail entries hfail services
      exact ⟨h.1, rfl, h.2⟩

/-- Witness for `c9_registry_fallback` on a concrete unreadable source
(missing file) and an empty initial registry. -/
theorem c9_registry_fallback_witness :
    dictLookup (loadConfig (.unreadable "No such file or directory") [])
        "api-gateway" = some apiGatewayDefault ∧
    apiGatewayDefault.category = ServiceCategory.core ∧
    loadConfig (.unreadable "No such file or directory") [] ≠ [] :=
  c9_registry_fallback (.unreadable "No such file or directory") [] rfl

/-- C8 counterexample input: the monitor holds one record at address 0;
`get_all_health` hands out the same binding, and an in-place mutation
of that record (a heap write through the shared address) changes what
the monitor itself subsequently reads — the internal health state is
mutated through the returned value, because `dict.copy()` copies only
the key table, not the mutable pydantic records. -/
theorem c8_counterexample :
    getAllHealthRefs ⟨[("svc", 0)]⟩ = [("svc", 0)] ∧
    getServiceHealthRead
        (fun _ => ⟨.running, some 1, 0, none, none, none, none⟩)
        ⟨[("svc", 0)]⟩ "svc" =
      some ⟨.running, some 1, 0, none, none, none, none⟩ ∧
    getServiceHealthRead
        (heapWrite (fun _ => ⟨.running, some 1, 0, none, none, none, none⟩) 0
          ⟨.stopped, none, 0, none, none, none, none⟩)
        ⟨[("svc", 0)]⟩ "svc" =
      some ⟨.stopped, none, 0, none, none, none, none⟩ ∧
    (⟨.stopped, none, 0, none, none, none, none⟩ : ServiceHealth) ≠
      ⟨.running, some 1, 0, none, none, none, none⟩ := by
  refine ⟨rfl, rfl, rfl, ?_⟩
  decide

/-- C8 (amended): `get_all_health` returns a fresh table holding the
same name-to-record bindings as the internal map (`dict.copy()`), so
caller-side edits of the table itself never reach the monitor's own
table; but the records are shared, so an in-place mutation of a record
reached through the snapshot is visible in the monitor's internal
health state. -/
theorem c8_snapshot_shallow_copy (mon : MonitorRefState)
    (heap : ℕ → ServiceHealth) (serviceName : String) (addr : ℕ)
    (r : ServiceHealth) :
    getAllHealthRefs mon = mon.healthData ∧
    (dictLookup (getAllHealthRefs mon) serviceName = some addr →
      getServiceHealthRead (heapWrite heap addr r) mon serviceName = some r) := by
  refine ⟨rfl, ?_⟩
  intro hlook
  simp only [getAllHealthRefs] at hlook
  simp [getServiceHealthRead, hlook, heapWrite]

/-- Witness for `c8_snapshot_shallow_copy` at a concrete monitor, heap
and write. -/
theorem c8_snapshot_shallow_copy_witness :
    getServiceHealthRead
        (heapWrite (fun _ => ⟨.running, some 1, 0, none, none, none, none⟩) 0
          ⟨.error, none, 0, some "mutated", none, none, none⟩)
        ⟨[("svc", 0)]⟩ "svc" =
      some ⟨.error, none, 0, some "mutated", none, none, none⟩ :=
  (c8_snapshot_shallow_copy ⟨[("svc", 0)]⟩
      (fun _ => ⟨.running, some 1, 0, none, none, none, none⟩) "svc" 0
      ⟨.error, none, 0, some "mutated", none, none, none⟩).2 rfl

end Bifrost
